import Mathlib

/-!
# Verification of win-profile-delete (src/main.rs)

A shallow embedding of the profile-inventory aggregation and safe-deletion
orchestration logic of this repository's single source file, together with
theorems settling the specification's claims about it.

The external collaborators (the WMI enumeration source, the
security-principal resolver behind `lookup_account_by_sid`, the filesystem
walker behind `get_dir_size`, and the `DeleteProfileA` primitive behind
`delete_user_profile`) are modelled as explicit function parameters, since
their bodies are OS calls:

* the enumeration source is a `List Win32_UserProfile` (the deserialized
  query result consumed by `get_user_profiles`);
* `lookup : String → Option AccountInfo` stands for
  `lookup_account_by_sid(..).ok()` (the only form in which the source
  consumes the resolver);
* `walk : String → List (Option (Option Nat))` stands for the `WalkDir`
  iterator: one outer `Option` per entry (`none` = the entry was an `Err`,
  dropped by `filter_map(|e| e.ok())`), the inner `Option Nat` for
  `f.metadata()` (`none` = the metadata call failed, mapped to 0 by
  `map_or(0, |f| f.len())`, `some n` = a length of `n` bytes);
* `deleteFn : String → Bool` stands for `delete_user_profile(sid).is_ok()`.

Machine integers (`u8`, `u32`, `u64`) only travel through the code
unchanged, so they are embedded as `Nat`; the single place where the
integer width is semantically visible, `parse::<usize>()` of a keep-list
token, carries an explicit `< 2 ^ 64` overflow bound.

`main`'s interactive orchestration is embedded as pure functions of its
inputs: the raw record list, the keep-list line, the confirmation line and
the outcome function of the deletion primitive. Rust's `str::trim`,
`str::to_lowercase` and `str::split(",")` are modelled character-list-wise
(`rustTrim`, `rustLowercase`, `splitComma`); Rust trims the full Unicode
White_Space set and lowercases beyond ASCII, which coincides with the model
on every string these claims touch. The `HashSet` of SIDs to delete is
modelled as the list of insertions in order; under the data model's
invariant that SIDs are unique per run (assumed as a `Nodup` hypothesis
where it matters) no duplicate insertion ever occurs, and the claims
settled here are insensitive to the unspecified `HashSet` iteration order.
-/

namespace WinProfileDelete

/-- The aggregated record, `struct ProfileInfo` of src/main.rs. -/
structure ProfileInfo where
  domain : Option String
  username : Option String
  sid : String
  health_status : Nat
  roaming_configured : Bool
  status : Nat
  loaded : Bool
  size : Option Nat
deriving DecidableEq, Repr

/-- One raw enumeration record, `struct Win32_UserProfile` of src/main.rs. -/
structure Win32_UserProfile where
  SID : String
  HealthStatus : Nat
  RoamingConfigured : Bool
  Status : Nat
  Special : Bool
  LocalPath : String
  Loaded : Bool
deriving DecidableEq, Repr

/-- A resolved identity, `struct AccountInfo` of src/main.rs. -/
structure AccountInfo where
  username : String
  domain_name : String
deriving DecidableEq, Repr

/-- `fn get_dir_size`: sums `metadata().map_or(0, |f| f.len())` over the
entries the walker yields as `Ok`, and wraps the sum in `Ok` — the function
body has no fallible path of its own. -/
def get_dir_size (walk : String → List (Option (Option Nat))) (path : String) :
    Except Unit Nat :=
  Except.ok ((((walk path).filterMap id).map (fun md => md.getD 0)).sum)

/-- The body of the `map` closure in `fn get_user_profiles`: build one
`ProfileInfo` from one raw record that passed both filters. -/
def buildProfile (lookup : String → Option AccountInfo)
    (walk : String → List (Option (Option Nat))) (up : Win32_UserProfile) :
    ProfileInfo :=
  let account_info := lookup up.SID
  { domain := account_info.map (fun a => a.domain_name)
    username := account_info.map (fun account => account.username)
    sid := up.SID
    health_status := up.HealthStatus
    roaming_configured := up.RoamingConfigured
    status := up.Status
    loaded := up.Loaded
    size := if up.Loaded then none else (get_dir_size walk up.LocalPath).toOption }

/-- Rust's `str::starts_with(p)` on the character list (byte prefixes and
character prefixes coincide on valid UTF-8). -/
def rustStartsWith (s p : String) : Bool :=
  p.data.isPrefixOf s.data

/-- The conjunction of the two `filter` predicates of `fn get_user_profiles`:
not flagged `Special`, and the SID starts with the standard user SID shape. -/
def includedProfile (up : Win32_UserProfile) : Bool :=
  !up.Special && rustStartsWith up.SID "S-1-5-21-"

/-- `fn get_user_profiles`, with the enumeration result and the two external
collaborators as parameters: filter out `Special` records, keep SIDs starting
with `"S-1-5-21-"`, and map each survivor to a `ProfileInfo`. -/
def get_user_profiles (lookup : String → Option AccountInfo)
    (walk : String → List (Option (Option Nat))) (raw : List Win32_UserProfile) :
    List ProfileInfo :=
  ((raw.filter (fun up => !up.Special)).filter
      (fun up => rustStartsWith up.SID "S-1-5-21-")).map (buildProfile lookup walk)

/-- Rust's derived `Ord` on `Option<String>` as a Boolean relation:
`None` below every `Some`, `Some` compared by the string order. -/
def optStrLe (a b : Option String) : Bool :=
  match a, b with
  | none, _ => true
  | some _, none => false
  | some x, some y => decide (x ≤ y)

/-- The key comparison of `user_profiles.sort_by_key(|k| k.username.clone())`. -/
def profileLe (a b : ProfileInfo) : Bool :=
  optStrLe a.username b.username

/-- `sort_by_key(|k| k.username.clone())`: a stable sort by the `username`
key, embedded as a stable merge sort under `profileLe`. -/
def sortProfiles (l : List ProfileInfo) : List ProfileInfo :=
  l.mergeSort profileLe

/-- Rust's `str::trim` on the character list (leading and trailing
whitespace removed). -/
def rustTrim (s : String) : String :=
  ⟨((s.data.dropWhile Char.isWhitespace).reverse.dropWhile Char.isWhitespace).reverse⟩

/-- Rust's `str::to_lowercase` on the character list. -/
def rustLowercase (s : String) : String :=
  ⟨s.data.map Char.toLower⟩

/-- Split a character list at every comma; a trailing accumulator holds the
piece being read, in reverse. -/
def splitCommaAux : List Char → List Char → List String
  | [], acc => [⟨acc.reverse⟩]
  | c :: rest, acc =>
    if c = ',' then ⟨acc.reverse⟩ :: splitCommaAux rest []
    else splitCommaAux rest (c :: acc)

/-- Rust's `buffer.split(",")`: the comma-separated pieces, in order;
an empty buffer yields one empty piece, like Rust's `split`. -/
def splitComma (s : String) : List String :=
  splitCommaAux s.data []

/-- Rust's `s.parse::<usize>()` as an `Option`: an optional leading `'+'`,
then one or more ASCII digits, nothing else, and the value must fit the
64-bit `usize` of the target. -/
def parseUsize (s : String) : Option Nat :=
  let digits :=
    match s.data with
    | '+' :: rest => rest
    | cs => cs
  if digits = [] then none
  else if digits.all (fun c => c.isDigit) then
    let v := digits.foldl (fun acc c => acc * 10 + (c.toNat - 48)) 0
    if v < 2 ^ 64 then some v else none
  else none

/-- The keep-set construction loop of `fn main`: split the input line on
commas, trim each token, and keep those that parse as `usize`. The
`HashSet` is modelled by the list of successfully parsed tokens. -/
def keepList (buffer : String) : List Nat :=
  (splitComma buffer).filterMap (fun s => parseUsize (rustTrim s))

/-- `keep.contains(&key)` of `fn main`. -/
def keepMem (buffer : String) (k : Nat) : Bool :=
  (keepList buffer).contains k

/-- The report line printed for a loaded profile that is excluded from the
candidate set. -/
def loadedMessage (sid : String) : String :=
  sid ++ " can\x27t be deleted, because profile is loaded"

/-- The candidate-selection loop of `fn main` over the enumerated inventory:
for each `(key, profile)` with `key` not in the keep-set, a loaded profile
contributes a report line and is skipped (`continue`), any other profile
contributes its `sid` to `sid_to_delete`. Returns (report lines of loaded
exclusions, inserted sids), each in loop order. -/
def selectionLoop (keep : Nat → Bool) : List (Nat × ProfileInfo) → List String × List String
  | [] => ([], [])
  | kp :: rest =>
    let r := selectionLoop keep rest
    if keep kp.1 then r
    else if kp.2.loaded then (loadedMessage kp.2.sid :: r.1, r.2)
    else (r.1, kp.2.sid :: r.2)

/-- The selection phase of `fn main` on a presented inventory: enumerate
with zero-based indices, then run the selection loop. -/
def computeSelection (keep : Nat → Bool) (profiles : List ProfileInfo) :
    List String × List String :=
  selectionLoop keep profiles.enum

/-- `buffer.trim().to_lowercase() == "y"` of `fn main`. -/
def confirmProceeds (buffer : String) : Bool :=
  rustLowercase (rustTrim buffer) == "y"

/-- The inventory `fn main` presents: the aggregated records sorted by
username. -/
def mainProfiles (lookup : String → Option AccountInfo)
    (walk : String → List (Option (Option Nat))) (raw : List Win32_UserProfile) :
    List ProfileInfo :=
  sortProfiles (get_user_profiles lookup walk raw)

/-- The `sid_to_delete` set of `fn main` (as the insertion-order list), for
a given keep-set. -/
def mainCandidates (lookup : String → Option AccountInfo)
    (walk : String → List (Option (Option Nat))) (raw : List Win32_UserProfile)
    (keep : Nat → Bool) : List String :=
  (computeSelection keep (mainProfiles lookup walk raw)).2

/-- The loaded-profile report lines of the selection phase of `fn main`. -/
def mainLoadedReports (lookup : String → Option AccountInfo)
    (walk : String → List (Option (Option Nat))) (raw : List Win32_UserProfile)
    (keep : Nat → Bool) : List String :=
  (computeSelection keep (mainProfiles lookup walk raw)).1

/-- The sids `fn main` passes to `delete_user_profile`, one list entry per
invocation: the whole candidate set when the confirmation check passes,
nothing otherwise. -/
def mainInvoked (lookup : String → Option AccountInfo)
    (walk : String → List (Option (Option Nat))) (raw : List Win32_UserProfile)
    (keep : Nat → Bool) (confirmInput : String) : List String :=
  if confirmProceeds confirmInput then mainCandidates lookup walk raw keep else []

/-- The deletion loop of `fn main`: one `delete_user_profile` invocation per
sid, one result line per invocation. -/
def runDeletions (deleteFn : String → Bool) (sids : List String) : List String :=
  sids.map (fun sid =>
    if deleteFn sid then "Deleted profile " ++ sid
    else "Failed to delete profile " ++ sid)

/-! ## Helper lemmas -/

theorem buildProfile_sid (lookup : String → Option AccountInfo)
    (walk : String → List (Option (Option Nat))) (up : Win32_UserProfile) :
    (buildProfile lookup walk up).sid = up.SID := rfl

theorem buildProfile_loaded (lookup : String → Option AccountInfo)
    (walk : String → List (Option (Option Nat))) (up : Win32_UserProfile) :
    (buildProfile lookup walk up).loaded = up.Loaded := rfl

/-- The two `filter` passes of `get_user_profiles` fuse into the single
inclusion predicate `includedProfile`. -/
theorem get_user_profiles_eq (lookup : String → Option AccountInfo)
    (walk : String → List (Option (Option Nat))) (raw : List Win32_UserProfile) :
    get_user_profiles lookup walk raw =
      (raw.filter includedProfile).map (buildProfile lookup walk) := by
  unfold get_user_profiles
  rw [List.filter_filter]
  congr 1
  apply List.filter_congr
  intro up _
  unfold includedProfile
  exact Bool.and_comm _ _

theorem selectionLoop_fst (keep : Nat → Bool) (l : List (Nat × ProfileInfo)) :
    (selectionLoop keep l).1 =
      (l.filter (fun kp => !keep kp.1 && kp.2.loaded)).map
        (fun kp => loadedMessage kp.2.sid) := by
  induction l with
  | nil => rfl
  | cons kp rest ih =>
    by_cases hk : keep kp.1 <;> by_cases hl : kp.2.loaded <;>
      simp [selectionLoop, hk, hl, List.filter_cons, ih]

theorem selectionLoop_snd (keep : Nat → Bool) (l : List (Nat × ProfileInfo)) :
    (selectionLoop keep l).2 =
      (l.filter (fun kp => !keep kp.1 && !kp.2.loaded)).map (fun kp => kp.2.sid) := by
  induction l with
  | nil => rfl
  | cons kp rest ih =>
    by_cases hk : keep kp.1 <;> by_cases hl : kp.2.loaded <;>
      simp [selectionLoop, hk, hl, List.filter_cons, ih]

theorem optStrLe_refl (a : Option String) : optStrLe a a = true := by
  cases a <;> simp [optStrLe]

theorem optStrLe_trans (a b c : Option String)
    (hab : optStrLe a b = true) (hbc : optStrLe b c = true) : optStrLe a c = true := by
  cases a <;> cases b <;> cases c <;> simp_all [optStrLe]
  exact le_trans hab hbc

theorem optStrLe_total (a b : Option String) : (optStrLe a b || optStrLe b a) = true := by
  cases a <;> cases b <;> simp [optStrLe]
  exact le_total _ _

theorem profileLe_trans (a b c : ProfileInfo)
    (hab : profileLe a b = true) (hbc : profileLe b c = true) : profileLe a c = true :=
  optStrLe_trans _ _ _ hab hbc

theorem profileLe_total (a b : ProfileInfo) : (profileLe a b || profileLe b a) = true :=
  optStrLe_total _ _

theorem sortProfiles_perm (l : List ProfileInfo) : (sortProfiles l).Perm l :=
  List.mergeSort_perm l profileLe

/-- The sid projection of the aggregated records is the SID projection of
the included raw records. -/
theorem get_user_profiles_map_sid (lookup : String → Option AccountInfo)
    (walk : String → List (Option (Option Nat))) (raw : List Win32_UserProfile) :
    (get_user_profiles lookup walk raw).map (fun p => p.sid) =
      (raw.filter includedProfile).map (fun up => up.SID) := by
  rw [get_user_profiles_eq, List.map_map]
  rfl

/-- Unique raw SIDs give unique sids in the presented inventory. -/
theorem mainProfiles_sid_nodup (lookup : String → Option AccountInfo)
    (walk : String → List (Option (Option Nat))) (raw : List Win32_UserProfile)
    (hnodup : (raw.map Win32_UserProfile.SID).Nodup) :
    ((mainProfiles lookup walk raw).map (fun p => p.sid)).Nodup := by
  have hagg : ((get_user_profiles lookup walk raw).map (fun p => p.sid)).Nodup := by
    rw [get_user_profiles_map_sid]
    exact ((List.filter_sublist raw).map _).nodup hnodup
  exact ((sortProfiles_perm _).map (fun p => p.sid)).nodup_iff.mpr hagg

/-- Every sid in the candidate set comes from a presented record that is
not loaded. -/
theorem mainCandidates_mem (lookup : String → Option AccountInfo)
    (walk : String → List (Option (Option Nat))) (raw : List Win32_UserProfile)
    (keep : Nat → Bool) (sid : String)
    (hsid : sid ∈ mainCandidates lookup walk raw keep) :
    ∃ p ∈ mainProfiles lookup walk raw, p.loaded = false ∧ p.sid = sid := by
  unfold mainCandidates computeSelection at hsid
  rw [selectionLoop_snd] at hsid
  obtain ⟨kp, hkp, hkpsid⟩ := List.mem_map.mp hsid
  obtain ⟨hmem, hpred⟩ := List.mem_filter.mp hkp
  refine ⟨kp.2, ?_, ?_, hkpsid⟩
  · have := List.mem_map_of_mem Prod.snd hmem
    rwa [List.enum_map_snd] at this
  · simp only [Bool.and_eq_true, Bool.not_eq_true'] at hpred
    exact hpred.2

/-- Splitting a count along a second predicate. -/
theorem countP_and_split (p q : α → Bool) (l : List α) :
    l.countP (fun a => p a && q a) + l.countP (fun a => p a && !q a) = l.countP p := by
  induction l with
  | nil => simp
  | cons a t ih =>
    by_cases hp : p a <;> by_cases hq : q a <;>
      simp [List.countP_cons, hp, hq] <;> omega

theorem string_append_cancel_left {a b c : String} (h : a ++ b = a ++ c) : b = c := by
  apply String.ext
  have hd := congrArg String.data h
  simp only [String.data_append] at hd
  exact List.append_cancel_left hd

theorem deleted_ne_failed (s t : String) :
    "Deleted profile " ++ s ≠ "Failed to delete profile " ++ t := by
  intro h
  have h1 : ("Deleted profile " ++ s).data.head? = some (Char.ofNat 68) := by
    rw [String.data_append]; rfl
  have h2 : ("Failed to delete profile " ++ t).data.head? = some (Char.ofNat 70) := by
    rw [String.data_append]; rfl
  rw [h, h2] at h1
  simp at h1

/-- The per-sid report line is injective in the sid, whatever the deletion
outcomes are. -/
theorem reportLine_injective (deleteFn : String → Bool) :
    Function.Injective (fun sid =>
      if deleteFn sid then "Deleted profile " ++ sid
      else "Failed to delete profile " ++ sid) := by
  intro s t h
  simp only at h
  by_cases hs : deleteFn s <;> by_cases ht : deleteFn t <;> simp [hs, ht] at h
  · exact string_append_cancel_left h
  · exact absurd h (deleted_ne_failed s t)
  · exact absurd h.symm (deleted_ne_failed t s)
  · exact string_append_cancel_left h

/-! ## The claims -/

/-- C1: the sid of a record with `loaded = true` is never passed to the
deletion primitive: for every inventory (with the data model's unique-SID
invariant), every operator keep-set and every confirmation input, every sid
in the invocation list of `delete_user_profile` belongs to no loaded record
of the presented inventory. -/
theorem C1_loaded_never_deleted
    (lookup : String → Option AccountInfo) (walk : String → List (Option (Option Nat)))
    (raw : List Win32_UserProfile) (keep : Nat → Bool) (confirmInput : String)
    (hnodup : (raw.map Win32_UserProfile.SID).Nodup)
    (sid : String) (hsid : sid ∈ mainInvoked lookup walk raw keep confirmInput)
    (p : ProfileInfo) (hp : p ∈ mainProfiles lookup walk raw) (hpsid : p.sid = sid) :
    p.loaded = false := by
  unfold mainInvoked at hsid
  split at hsid
  · obtain ⟨q, hq, hqload, hqsid⟩ := mainCandidates_mem lookup walk raw keep sid hsid
    have hnd := mainProfiles_sid_nodup lookup walk raw hnodup
    have hpq : p = q :=
      List.inj_on_of_nodup_map hnd hp hq (by rw [hpsid, hqsid])
    rw [hpq]
    exact hqload
  · exact absurd hsid (List.not_mem_nil sid)

theorem C1_witness :
    ({ domain := none, username := none, sid := "S-1-5-21-2", health_status := 0,
       roaming_configured := false, status := 0, loaded := false,
       size := some 0 } : ProfileInfo).loaded = false :=
  C1_loaded_never_deleted (fun _ => none) (fun _ => [])
    [⟨"S-1-5-21-1", 0, false, 0, false, "C:", true⟩,
     ⟨"S-1-5-21-2", 0, false, 0, false, "C:", false⟩]
    (fun _ => false) "y" (by decide) "S-1-5-21-2"
    (by simp [mainInvoked, confirmProceeds, rustTrim, rustLowercase, mainCandidates,
      computeSelection, mainProfiles, sortProfiles, get_user_profiles, buildProfile,
      get_dir_size, selectionLoop, List.enum, List.enumFrom, rustStartsWith,
      List.mergeSort, List.splitInTwo, List.merge, profileLe, optStrLe])
    _
    (by simp [mainProfiles, sortProfiles, get_user_profiles, buildProfile,
      get_dir_size, Except.toOption, rustStartsWith,
      List.mergeSort, List.splitInTwo, List.merge, profileLe, optStrLe])
    rfl

/-- C2: for every presented inventory and every keep-set, the candidate set
is exactly the records whose zero-based presentation index is outside the
keep-set and whose `loaded` field is false, and the records excluded solely
for being loaded are exactly the ones reported with the message
`<sid> can't be deleted, because profile is loaded`. -/
theorem C2_candidate_set_exact (profiles : List ProfileInfo) (keep : Nat → Bool) :
    (computeSelection keep profiles).2 =
      (profiles.enum.filter (fun kp => !keep kp.1 && !kp.2.loaded)).map
        (fun kp => kp.2.sid) ∧
    (computeSelection keep profiles).1 =
      (profiles.enum.filter (fun kp => !keep kp.1 && kp.2.loaded)).map
        (fun kp => kp.2.sid ++ " can\x27t be deleted, because profile is loaded") := by
  constructor
  · exact selectionLoop_snd keep profiles.enum
  · rw [computeSelection, selectionLoop_fst]
    rfl

/-- C3: every aggregated record with `loaded = true` has `size = none`:
the footprint scan runs only when the raw `Loaded` flag is false. -/
theorem C3_loaded_size_none
    (lookup : String → Option AccountInfo) (walk : String → List (Option (Option Nat)))
    (raw : List Win32_UserProfile) (p : ProfileInfo)
    (hp : p ∈ get_user_profiles lookup walk raw) (hl : p.loaded = true) :
    p.size = none := by
  rw [get_user_profiles_eq] at hp
  obtain ⟨up, _, hbuild⟩ := List.mem_map.mp hp
  subst hbuild
  simp only [buildProfile] at hl ⊢
  rw [if_pos hl]

theorem C3_witness :
    ({ domain := none, username := none, sid := "S-1-5-21-1", health_status := 0,
       roaming_configured := false, status := 0, loaded := true,
       size := none } : ProfileInfo).size = none :=
  C3_loaded_size_none (fun _ => none) (fun _ => [])
    [⟨"S-1-5-21-1", 0, false, 0, false, "C:", true⟩] _
    (by simp [get_user_profiles, buildProfile, rustStartsWith]) rfl

/-- C4: under the data model's unique-SID invariant, a raw record that is
flagged `Special` or whose identifier does not start with `"S-1-5-21-"`
has no corresponding record in the aggregated set (count 0 by sid), and
every other raw record has exactly one. -/
theorem C4_inclusion_gate
    (lookup : String → Option AccountInfo) (walk : String → List (Option (Option Nat)))
    (raw : List Win32_UserProfile)
    (hnodup : (raw.map Win32_UserProfile.SID).Nodup)
    (up : Win32_UserProfile) (hmem : up ∈ raw) :
    (up.Special = true ∨ rustStartsWith up.SID "S-1-5-21-" = false →
      (get_user_profiles lookup walk raw).countP (fun p => p.sid == up.SID) = 0) ∧
    (up.Special = false → rustStartsWith up.SID "S-1-5-21-" = true →
      (get_user_profiles lookup walk raw).countP (fun p => p.sid == up.SID) = 1) := by
  have hmap : (get_user_profiles lookup walk raw).countP (fun p => p.sid == up.SID) =
      raw.countP (fun u => u.SID == up.SID && includedProfile u) := by
    rw [get_user_profiles_eq, List.countP_map, List.countP_filter]
    rfl
  have htotal : raw.countP (fun u => u.SID == up.SID) = 1 := by
    have h1 : List.count up.SID (raw.map Win32_UserProfile.SID) = 1 :=
      List.count_eq_one_of_mem hnodup (List.mem_map_of_mem _ hmem)
    rw [List.count_eq_countP, List.countP_map] at h1
    exact h1
  have hsplit := countP_and_split (fun u => u.SID == up.SID) includedProfile raw
  rw [htotal] at hsplit
  constructor
  · intro hexc
    have hinc : includedProfile up = false := by
      unfold includedProfile
      rcases hexc with h | h <;> simp [h]
    have hpos : 0 < raw.countP (fun u => u.SID == up.SID && !includedProfile u) :=
      List.countP_pos_iff.mpr ⟨up, hmem, by simp [hinc]⟩
    rw [hmap]
    omega
  · intro hns hsw
    have hinc : includedProfile up = true := by
      unfold includedProfile
      simp [hns, hsw]
    have hpos : 0 < raw.countP (fun u => u.SID == up.SID && includedProfile u) :=
      List.countP_pos_iff.mpr ⟨up, hmem, by simp [hinc]⟩
    rw [hmap]
    omega

theorem C4_witness :
    (get_user_profiles (fun _ => none) (fun _ => [])
        [⟨"S-1-5-21-9", 0, false, 0, true, "C:", false⟩,
         ⟨"S-1-5-21-2", 0, false, 0, false, "C:", false⟩]).countP
      (fun p => p.sid == "S-1-5-21-9") = 0 ∧
    (get_user_profiles (fun _ => none) (fun _ => [])
        [⟨"S-1-5-21-9", 0, false, 0, true, "C:", false⟩,
         ⟨"S-1-5-21-2", 0, false, 0, false, "C:", false⟩]).countP
      (fun p => p.sid == "S-1-5-21-2") = 1 :=
  ⟨(C4_inclusion_gate (fun _ => none) (fun _ => []) _ (by decide)
      ⟨"S-1-5-21-9", 0, false, 0, true, "C:", false⟩ (by decide)).1 (Or.inl rfl),
   (C4_inclusion_gate (fun _ => none) (fun _ => []) _ (by decide)
      ⟨"S-1-5-21-2", 0, false, 0, false, "C:", false⟩ (by decide)).2 rfl (by decide)⟩

theorem empty_string_le (s : String) : "" ≤ s := by
  rw [String.le_iff_toList_le]
  exact List.nil_le

theorem optStrLe_getD (a b : Option String) (h : optStrLe a b = true) :
    a.getD "" ≤ b.getD "" := by
  cases a <;> cases b <;> simp_all [optStrLe, empty_string_le]

theorem optStrLe_none_first (a b : Option String) (h : optStrLe a b = true)
    (hb : b = none) : a = none := by
  cases a <;> cases b <;> simp_all [optStrLe]

/-- C5, counterexample: with one record whose username is `some ""` before
one whose username is `none`, the sort moves the `none` record in front of
the `some ""` record, although the two compare equal under the claim's
"absent username is the empty string" key — so the presented order is not a
stable sort under that key. -/
theorem C5_counterexample :
    ¬ ((sortProfiles
          [{ domain := none, username := some "", sid := "S-A", health_status := 0,
             roaming_configured := false, status := 0, loaded := false, size := none },
           { domain := none, username := none, sid := "S-B", health_status := 0,
             roaming_configured := false, status := 0, loaded := false, size := none }]).filter
        (fun r => r.username.getD "" == "") =
      ([{ domain := none, username := some "", sid := "S-A", health_status := 0,
          roaming_configured := false, status := 0, loaded := false, size := none },
        { domain := none, username := none, sid := "S-B", health_status := 0,
          roaming_configured := false, status := 0, loaded := false, size := none }] :
        List ProfileInfo).filter (fun r => r.username.getD "" == "")) := by
  intro h
  have hsort : sortProfiles
      [{ domain := none, username := some "", sid := "S-A", health_status := 0,
         roaming_configured := false, status := 0, loaded := false, size := none },
       { domain := none, username := none, sid := "S-B", health_status := 0,
         roaming_configured := false, status := 0, loaded := false, size := none }] =
      [{ domain := none, username := none, sid := "S-B", health_status := 0,
         roaming_configured := false, status := 0, loaded := false, size := none },
       { domain := none, username := some "", sid := "S-A", health_status := 0,
         roaming_configured := false, status := 0, loaded := false, size := none }] := by
    simp [sortProfiles, List.mergeSort, List.splitInTwo, List.merge, profileLe, optStrLe]
  rw [hsort] at h
  revert h
  decide

/-- C5, amended: the presented inventory is a permutation of the aggregated
set, non-decreasing in the username with an absent username reading as the
empty string, stable with respect to the actual sort key (the optional
username, with absent strictly below every present username), and the
absent-username records cluster at the start. -/
theorem C5_sorted_by_username (ps : List ProfileInfo) :
    (sortProfiles ps).Perm ps ∧
    List.Pairwise (fun a b => a.username.getD "" ≤ b.username.getD "") (sortProfiles ps) ∧
    (∀ u : Option String,
      (sortProfiles ps).filter (fun r => r.username == u) =
        ps.filter (fun r => r.username == u)) ∧
    List.Pairwise (fun a b => b.username = none → a.username = none) (sortProfiles ps) := by
  have hsorted := List.sorted_mergeSort profileLe_trans profileLe_total ps
  refine ⟨sortProfiles_perm ps, ?_, ?_, ?_⟩
  · exact hsorted.imp (fun h => optStrLe_getD _ _ h)
  · intro u
    have hpw : (ps.filter (fun r => r.username == u)).Pairwise
        (fun a b => profileLe a b = true) := by
      apply List.pairwise_of_forall_mem_list
      intro a ha b hb
      have hau : a.username = u := eq_of_beq (List.mem_filter.mp ha).2
      have hbu : b.username = u := eq_of_beq (List.mem_filter.mp hb).2
      unfold profileLe
      rw [hau, hbu]
      exact optStrLe_refl u
    have hsub : (ps.filter (fun r => r.username == u)).Sublist (sortProfiles ps) :=
      List.sublist_mergeSort profileLe_trans profileLe_total hpw (List.filter_sublist ps)
    have hsub2 := List.Sublist.filter (fun r => r.username == u) hsub
    have hidem : (ps.filter (fun r => r.username == u)).filter (fun r => r.username == u)
        = ps.filter (fun r => r.username == u) := by
      rw [List.filter_filter]
      simp
    rw [hidem] at hsub2
    have hlen : ((sortProfiles ps).filter (fun r => r.username == u)).length =
        (ps.filter (fun r => r.username == u)).length :=
      ((sortProfiles_perm ps).filter _).length_eq
    exact (hsub2.eq_of_length hlen.symm).symm
  · exact hsorted.imp (fun h hb => optStrLe_none_first _ _ h hb)

/-- C6: the keep-set holds exactly the comma-separated tokens that parse,
after trimming, as a non-negative integer; tokens that do not parse are
silently dropped. In particular `"0, abc, 2"` yields the keep-set {0, 2}. -/
theorem C6_keep_set (buffer : String) (k : Nat) :
    (keepMem buffer k = true ↔
      ∃ s ∈ splitComma buffer, parseUsize (rustTrim s) = some k) ∧
    (keepMem "0, abc, 2" k = true ↔ k = 0 ∨ k = 2) := by
  constructor
  · rw [keepMem, List.contains_iff_exists_mem_beq]
    constructor
    · rintro ⟨v, hv, hbeq⟩
      have hkv : k = v := by simpa using hbeq
      subst hkv
      exact List.mem_filterMap.mp hv
    · rintro ⟨s, hs, hparse⟩
      exact ⟨k, List.mem_filterMap.mpr ⟨s, hs, hparse⟩, by simp⟩
  · have hkl : keepList "0, abc, 2" = [0, 2] := by decide
    rw [keepMem, hkl, List.contains_iff_exists_mem_beq]
    simp

/-- C7, counterexample: the input `" y"` is neither `"Y"` nor `"y"` in any
case, yet the run proceeds to deletion execution (a non-empty invocation
list), because `main` trims the input before comparing. -/
theorem C7_counterexample :
    " y" ≠ "Y" ∧ " y" ≠ "y" ∧
    mainInvoked (fun _ => none) (fun _ => [])
      [⟨"S-1-5-21-1", 0, false, 0, false, "C:", false⟩] (fun _ => false) " y" =
      ["S-1-5-21-1"] := by
  refine ⟨by decide, by decide, ?_⟩
  simp [mainInvoked, confirmProceeds, rustTrim, rustLowercase, mainCandidates,
    computeSelection, mainProfiles, sortProfiles, get_user_profiles, buildProfile,
    get_dir_size, selectionLoop, List.enum, List.enumFrom, rustStartsWith]

/-- C7, amended: a confirmation input whose whitespace-trimmed, lowercased
form is `"y"` (in particular `"Y"` and `"y"` themselves) proceeds to
deletion execution; any other input aborts with zero deletion invocations
and zero result lines. -/
theorem C7_confirmation
    (lookup : String → Option AccountInfo) (walk : String → List (Option (Option Nat)))
    (raw : List Win32_UserProfile) (keep : Nat → Bool) (confirmInput : String)
    (deleteFn : String → Bool) :
    confirmProceeds "Y" = true ∧ confirmProceeds "y" = true ∧
    (rustLowercase (rustTrim confirmInput) = "y" →
      mainInvoked lookup walk raw keep confirmInput = mainCandidates lookup walk raw keep) ∧
    (rustLowercase (rustTrim confirmInput) ≠ "y" →
      mainInvoked lookup walk raw keep confirmInput = [] ∧
      runDeletions deleteFn (mainInvoked lookup walk raw keep confirmInput) = []) := by
  refine ⟨by decide, by decide, fun h => ?_, fun h => ?_⟩
  · simp [mainInvoked, confirmProceeds, h]
  · simp [mainInvoked, confirmProceeds, h, runDeletions]

/-- C8: the deletion loop invokes the primitive once per candidate sid and
emits exactly one result line per sid — `Deleted profile <id>` on success,
`Failed to delete profile <id>` on failure; each line is determined by that
sid's own outcome alone, so one failure never stops the others. -/
theorem C8_deletion_isolation (deleteFn : String → Bool) (sids : List String)
    (hnodup : sids.Nodup) :
    (runDeletions deleteFn sids).length = sids.length ∧
    (∀ i : Nat, (runDeletions deleteFn sids)[i]? =
      (sids[i]?).map (fun sid =>
        if deleteFn sid then "Deleted profile " ++ sid
        else "Failed to delete profile " ++ sid)) ∧
    (∀ sid ∈ sids, (runDeletions deleteFn sids).count
        (if deleteFn sid then "Deleted profile " ++ sid
         else "Failed to delete profile " ++ sid) = 1) := by
  refine ⟨by simp [runDeletions], fun i => ?_, fun sid hsid => ?_⟩
  · rw [runDeletions, List.getElem?_map]
  · rw [runDeletions]
    exact (List.count_map_of_injective sids _ (reportLine_injective deleteFn) sid).trans
      (List.count_eq_one_of_mem hnodup hsid)

theorem C8_witness :
    (runDeletions (fun s => s == "S-B") ["S-A", "S-B"]).count
      "Failed to delete profile S-A" = 1 :=
  (C8_deletion_isolation (fun s => s == "S-B") ["S-A", "S-B"] (by decide)).2.2
    "S-A" (by decide)

/-- C9: for an included raw record, a failed identity resolution yields a
record with absent domain and username while every other field is taken
from the source unchanged; a successful resolution fills both; and the
number of aggregated records never depends on resolution outcomes (a
resolution failure aborts nothing). -/
theorem C9_identity_failure_isolated
    (lookup : String → Option AccountInfo) (walk : String → List (Option (Option Nat)))
    (up : Win32_UserProfile) (_hinc : includedProfile up = true) :
    (lookup up.SID = none →
      buildProfile lookup walk up =
        { domain := none, username := none, sid := up.SID,
          health_status := up.HealthStatus, roaming_configured := up.RoamingConfigured,
          status := up.Status, loaded := up.Loaded,
          size := if up.Loaded then none
                  else (get_dir_size walk up.LocalPath).toOption }) ∧
    (∀ a : AccountInfo, lookup up.SID = some a →
      (buildProfile lookup walk up).domain = some a.domain_name ∧
      (buildProfile lookup walk up).username = some a.username) ∧
    (∀ raw : List Win32_UserProfile,
      (get_user_profiles lookup walk raw).length = (raw.filter includedProfile).length) := by
  refine ⟨fun h => ?_, fun a h => ?_, fun raw => ?_⟩
  · simp [buildProfile, h]
  · constructor <;> simp [buildProfile, h]
  · rw [get_user_profiles_eq, List.length_map]

theorem C9_witness :
    buildProfile (fun _ => none) (fun _ => [])
        ⟨"S-1-5-21-7", 3, true, 5, false, "C:", true⟩ =
      { domain := none, username := none, sid := "S-1-5-21-7", health_status := 3,
        roaming_configured := true, status := 5, loaded := true, size := none } :=
  (C9_identity_failure_isolated (fun _ => none) (fun _ => [])
    ⟨"S-1-5-21-7", 3, true, 5, false, "C:", true⟩ (by decide)).1 rfl

/-- C10: `get_dir_size` returns `Ok` for every walker behaviour and every
path (entry errors are dropped, unreadable metadata counts as 0), so every
aggregated record with `loaded = false` carries `size = some _` — the
spec's "scan failed" branch for an unloaded profile is dead code. -/
theorem C10_scan_never_fails
    (walk : String → List (Option (Option Nat))) (path : String)
    (lookup : String → Option AccountInfo) (raw : List Win32_UserProfile) :
    (∃ n, get_dir_size walk path = Except.ok n) ∧
    (∀ p ∈ get_user_profiles lookup walk raw, p.loaded = false → ∃ n, p.size = some n) := by
  refine ⟨⟨_, rfl⟩, fun p hp hl => ?_⟩
  rw [get_user_profiles_eq] at hp
  obtain ⟨up, _, hbuild⟩ := List.mem_map.mp hp
  subst hbuild
  simp only [buildProfile] at hl ⊢
  rw [if_neg (by simp [hl])]
  exact ⟨_, rfl⟩

end WinProfileDelete
